import Mathlib

/-!
Verification development for the Crypto Price Sonifier application
(`src/main.rs`). The Rust source is shallowly embedded: `f64`/`f32`
arithmetic is modelled over `ℚ` (the source performs only field
operations and comparisons on the values the claims mention), `usize`
over `ℕ`, and millisecond timestamps over `ℤ`. UI rendering, HTTP
transport and the audio device are effects outside the embedding; their
observable decisions (response contents, "is the sink still playing",
"was the back button clicked", the sampled sine value) enter the step
functions as explicit parameters.
-/

namespace Sonifier

/-- Calendar-day key of a raw millisecond timestamp. The Rust code
computes `(timestamp / 1000.0) as i64` (truncation toward zero, modelled
by `Int.tdiv`) and then formats the UTC datetime as `"%Y-%m-%d"`; two
second-counts produce the same date string exactly when they lie in the
same UTC day, i.e. when flooring by 86400 (modelled by `Int.fdiv`)
agrees, and the date string is strictly monotone in that day number, so
the day number is a faithful order-preserving stand-in for the string. -/
def dayKey (timestamp_ms : Int) : Int :=
  (timestamp_ms.tdiv 1000).fdiv 86400

/-- `DailyPrice { date, price }` from the source; `date` is represented
by its day number (see `dayKey`). -/
structure DailyPrice where
  date : Int
  price : ℚ
deriving DecidableEq, Repr, Inhabited

/-- `MarketChart { prices }`: the deserialized JSON body, a list of
(millisecond timestamp, price) pairs. -/
structure MarketChart where
  prices : List (Int × ℚ)
deriving DecidableEq, Repr

/-- `ChartData { daily_prices }` from the source. -/
structure ChartData where
  daily_prices : List DailyPrice
deriving DecidableEq, Repr

/-- The daily-reduction loop body of `ChartApp::fetch_data`
(src/main.rs:144-160): iterate over the raw samples carrying
`last_date`, pushing a `DailyPrice` whenever the sample's date differs
from `last_date`. -/
def reduceDailyAux : Option Int → List (Int × ℚ) → List DailyPrice
  | _, [] => []
  | last_date, (timestamp, price) :: rest =>
    let date := dayKey timestamp
    if last_date ≠ some date then
      { date := date, price := price } :: reduceDailyAux (some date) rest
    else
      reduceDailyAux last_date rest

/-- The daily reduction of `ChartApp::fetch_data`, starting from
`last_date = None`. -/
def reduceDaily (prices : List (Int × ℚ)) : List DailyPrice :=
  reduceDailyAux none prices

/-- Specification-level dedup ("keep the first sample seen for each
calendar day"): a sample is kept exactly when its day has not been seen
before, anywhere earlier in the input. Used to compare the code's
reduction against the spec's description. -/
def firstPerDayAux (seen : List Int) : List (Int × ℚ) → List DailyPrice
  | [] => []
  | (timestamp, price) :: rest =>
    let date := dayKey timestamp
    if date ∈ seen then
      firstPerDayAux seen rest
    else
      { date := date, price := price } :: firstPerDayAux (date :: seen) rest

/-- Specification-level dedup starting with no day seen. -/
def firstPerDay (prices : List (Int × ℚ)) : List DailyPrice :=
  firstPerDayAux [] prices

/-- Failure of the network/deserialization steps in `fetch_data`
(the two `?` operators on `send().await` and `json().await`). -/
inductive FetchError where
  | network
  | deserialization
deriving DecidableEq, Repr

/-- `ChartApp::fetch_data` (src/main.rs:122-164) with the HTTP exchange
abstracted: the transport either fails (either `?` returns early with
the error) or yields a parsed `MarketChart`, whose samples are then
reduced to daily prices. No emptiness or ordering check is performed. -/
def fetch_data (response : Except FetchError MarketChart) :
    Except FetchError ChartData :=
  match response with
  | .error e => .error e
  | .ok mc => .ok { daily_prices := reduceDaily mc.prices }

/-- `ImageSequencer` (src/main.rs:62-86): two round-robin counters over
the bull pool (7 images) and the bear pool (4 images). -/
structure ImageSequencer where
  bull_index : Nat
  bear_index : Nat
deriving DecidableEq, Repr

/-- `ImageSequencer::new`. -/
def ImageSequencer.new : ImageSequencer :=
  { bull_index := 0, bear_index := 0 }

/-- `ImageSequencer::get_next_bull_index`: returns the current bull
counter and advances it modulo 7; the mutated receiver is returned as
the second component. -/
def get_next_bull_index (s : ImageSequencer) : Nat × ImageSequencer :=
  (s.bull_index, { s with bull_index := (s.bull_index + 1) % 7 })

/-- `ImageSequencer::get_next_bear_index`: returns the current bear
counter and advances it modulo 4. -/
def get_next_bear_index (s : ImageSequencer) : Nat × ImageSequencer :=
  (s.bear_index, { s with bear_index := (s.bear_index + 1) % 4 })

/-- The sequencer state after `n` calls to `get_next_bull_index`
starting from `ImageSequencer::new`. -/
def bullCalls : Nat → ImageSequencer
  | 0 => ImageSequencer.new
  | n + 1 => (get_next_bull_index (bullCalls n)).2

/-- The sequencer state after `n` calls to `get_next_bear_index`
starting from `ImageSequencer::new`. -/
def bearCalls : Nat → ImageSequencer
  | 0 => ImageSequencer.new
  | n + 1 => (get_next_bear_index (bearCalls n)).2

/-- `AnimatedImage` (src/main.rs:23-30). -/
structure AnimatedImage where
  scale : ℚ
  target_scale : ℚ
  opacity : ℚ
  target_opacity : ℚ
  float_offset : ℚ
  float_time : ℚ
deriving DecidableEq, Repr

/-- `AnimatedImage::new` (src/main.rs:33-42). -/
def AnimatedImage.new : AnimatedImage :=
  { scale := 0.8, target_scale := 1,
    opacity := 0, target_opacity := 1,
    float_offset := 0, float_time := 0 }

/-- `AnimatedImage::animate` (src/main.rs:44-54). `qsin` is the `f32`
sine function, passed as an uninterpreted parameter (its values never
matter for the claims); the source computes
`float_offset = FLOAT_AMPLITUDE * float_time.sin()` after bumping
`float_time`. -/
def AnimatedImage.animate (qsin : ℚ → ℚ) (a : AnimatedImage) (dt : ℚ) :
    AnimatedImage :=
  let ANIMATION_SPEED : ℚ := 8
  let FLOAT_SPEED : ℚ := 2
  let FLOAT_AMPLITUDE : ℚ := 10
  let scale := a.scale + (a.target_scale - a.scale) * dt * ANIMATION_SPEED
  let opacity :=
    a.opacity + (a.target_opacity - a.opacity) * dt * ANIMATION_SPEED
  let float_time := a.float_time + dt * FLOAT_SPEED
  { a with
    scale := scale,
    opacity := opacity,
    float_time := float_time,
    float_offset := FLOAT_AMPLITUDE * qsin float_time }

/-- A synthesized tone: `SineWave::new(freq).take_duration(2000 ms)
.amplify(0.20)` is characterized by its frequency, duration and
amplitude. -/
structure Tone where
  freq : ℚ
  duration_ms : Nat
  amplitude : ℚ
deriving DecidableEq, Repr

/-- `ChartApp::generate_sound` (src/main.rs:166-177). -/
def generate_sound (price_change : ℚ) : Tone :=
  let base_freq : ℚ := 440
  let freq :=
    if price_change > 0 then
      base_freq / (1 + |price_change| / 2)
    else
      base_freq * (1 + |price_change| / 2)
  { freq := freq, duration_ms := 2000, amplitude := 0.20 }

/-- The percent-change computation of the tick
(src/main.rs:366): `((next_price - current_price) / current_price) * 100`. -/
def pct_change (current_price next_price : ℚ) : ℚ :=
  ((next_price - current_price) / current_price) * 100

/-- `ChartApp` (src/main.rs:88-100). Texture handles are rendering
resources outside the embedding; `sound_output` records whether the
audio stream/sink pair is present (`Option` in the source, always
`Some` after a successful `new_from_data`). -/
structure ChartApp where
  daily_prices : List DailyPrice
  current_index : Nat
  sound_output : Bool
  animation_timer : ℚ
  current_texture_index : Nat
  image_animation : AnimatedImage
  point_progress : ℚ
  should_return_home : Bool
  image_sequencer : ImageSequencer
deriving DecidableEq, Repr

/-- `ChartApp::new_from_data` (src/main.rs:103-120), after a successful
audio-device initialization. -/
def ChartApp.new_from_data (data : ChartData) : ChartApp :=
  { daily_prices := data.daily_prices,
    current_index := 0,
    sound_output := true,
    animation_timer := 0,
    current_texture_index := 0,
    image_animation := AnimatedImage.new,
    point_progress := 0,
    should_return_home := false,
    image_sequencer := ImageSequencer.new }

/-- The sequencer-advance block of `ChartApp::update`
(src/main.rs:364-385), executed when the timer and cursor guard holds:
read the current and next price, synthesize a tone (when the sink
exists), reset scale/opacity/point-progress, advance the cursor, zero
the timer, and pick the next texture index from the image sequencer by
comparing the two prices. `List.getD` stands in for Rust's panicking
index; the guard in `update` keeps both accesses in bounds. -/
def ChartApp.advance (s : ChartApp) : ChartApp × Option Tone :=
  let current_price := (s.daily_prices.getD s.current_index default).price
  let next_price := (s.daily_prices.getD (s.current_index + 1) default).price
  let price_change := pct_change current_price next_price
  let tone := if s.sound_output then some (generate_sound price_change) else none
  let picked :=
    if current_price < next_price then
      get_next_bull_index s.image_sequencer
    else
      get_next_bear_index s.image_sequencer
  ({ s with
      image_animation :=
        { s.image_animation with scale := 0.8, opacity := 0 },
      point_progress := 0,
      current_index := s.current_index + 1,
      animation_timer := 0,
      current_texture_index := picked.1,
      image_sequencer := picked.2 }, tone)

/-- One frame of `ChartApp::update` (src/main.rs:223-389): animate the
image, record a back-button click (the UI closure sets
`should_return_home`), clamp the point progress, accumulate the timer,
early-return while the sink is still playing, and otherwise run the
sequencer advance when at least 2 seconds have accumulated and the
cursor is not at the last day. `sink_nonempty` is the sampled value of
`!sink.empty()`; the chart rendering itself has no state effect (it
would panic on an empty series, as would the guard's `len() - 1` usize
underflow — all claims assume a non-empty series, where `Nat`
subtraction agrees with the source). The second component is the tone
appended to the sink this frame, if any. -/
def ChartApp.update (qsin : ℚ → ℚ) (s : ChartApp) (dt : ℚ)
    (sink_nonempty back_clicked : Bool) : ChartApp × Option Tone :=
  let s1 := { s with image_animation := s.image_animation.animate qsin dt }
  let s2 := { s1 with
              should_return_home := s1.should_return_home || back_clicked }
  let pp := s2.point_progress + dt * 2
  let s3 := { s2 with point_progress := if pp > 1 then 1 else pp }
  let s4 := { s3 with animation_timer := s3.animation_timer + dt }
  if s4.sound_output && sink_nonempty then
    (s4, none)
  else if s4.animation_timer ≥ 2 ∧
      s4.current_index < s4.daily_prices.length - 1 then
    s4.advance
  else
    (s4, none)

/-- `Page` (src/main.rs:414-419). -/
inductive Page where
  | Selection
  | EthChart
  | BtcChart
  | XrpChart
deriving DecidableEq, Repr

/-- `LoadingState` (src/main.rs:464-468). -/
inductive LoadingState where
  | NotLoading
  | Loading (crypto_name : String)
deriving DecidableEq, Repr

/-- `MainApp` (src/main.rs:470-478). `has_receiver` records whether
`data_receiver` is `Some`; the selection page's texture slots are
rendering resources outside the embedding. -/
structure MainApp where
  current_page : Page
  eth_chart : Option ChartApp
  btc_chart : Option ChartApp
  xrp_chart : Option ChartApp
  loading_state : LoadingState
  has_receiver : Bool
deriving DecidableEq, Repr

/-- `MainApp::new` (src/main.rs:481-491). -/
def MainApp.new : MainApp :=
  { current_page := Page.Selection,
    eth_chart := none,
    btc_chart := none,
    xrp_chart := none,
    loading_state := LoadingState.NotLoading,
    has_receiver := false }

/-- The worker thread spawned on a click (src/main.rs:585-590 and its
two clones): `if let Ok(data) = ChartApp::fetch_data(coin) { tx.send((coin, data)) }`
— on a fetch error nothing is ever sent on the channel. The returned
`Option` is what the channel can deliver. -/
def fetch_worker (coin : String) (result : Except FetchError ChartData) :
    Option (String × ChartData) :=
  match result with
  | .ok data => some (coin, data)
  | .error _ => none

/-- The channel-polling prologue of `MainApp::update`
(src/main.rs:496-518): when a receiver is installed and `try_recv`
yields a pair, build the chart (`audio_ok` is whether
`ChartApp::new_from_data`'s audio initialization succeeded), route to
the matching page, clear the loading state and drop the receiver.
`msg` is the value `try_recv` returned this frame, `none` for
`Err(TryRecvError)`. -/
def MainApp.receive (m : MainApp) (msg : Option (String × ChartData))
    (audio_ok : Bool) : MainApp :=
  if m.has_receiver then
    match msg with
    | some (coin, data) =>
      if audio_ok then
        let chart := ChartApp.new_from_data data
        let m1 :=
          if coin = "ethereum" then
            { m with eth_chart := some chart, current_page := Page.EthChart }
          else if coin = "bitcoin" then
            { m with btc_chart := some chart, current_page := Page.BtcChart }
          else if coin = "ripple" then
            { m with xrp_chart := some chart, current_page := Page.XrpChart }
          else m
        { m1 with loading_state := LoadingState.NotLoading,
                  has_receiver := false }
      else m
    | none => m
  else m

/-- One frame of `MainApp::update` (src/main.rs:495-776): poll the
channel, then dispatch on the current page. The selection page only
draws (clicks, which would start a new fetch, are a separate user
action and not part of this frame); a chart page runs its
`ChartApp::update` and returns to selection, dropping the session,
when the chart raised `should_return_home`. -/
def MainApp.update (qsin : ℚ → ℚ) (m : MainApp)
    (msg : Option (String × ChartData)) (audio_ok : Bool) (dt : ℚ)
    (sink_nonempty back_clicked : Bool) : MainApp :=
  let m := m.receive msg audio_ok
  match m.current_page with
  | Page.Selection => m
  | Page.EthChart =>
    match m.eth_chart with
    | some chart =>
      let chart := (chart.update qsin dt sink_nonempty back_clicked).1
      if chart.should_return_home then
        { m with current_page := Page.Selection, eth_chart := none }
      else
        { m with eth_chart := some chart }
    | none => m
  | Page.BtcChart =>
    match m.btc_chart with
    | some chart =>
      let chart := (chart.update qsin dt sink_nonempty back_clicked).1
      if chart.should_return_home then
        { m with current_page := Page.Selection, btc_chart := none }
      else
        { m with btc_chart := some chart }
    | none => m
  | Page.XrpChart =>
    match m.xrp_chart with
    | some chart =>
      let chart := (chart.update qsin dt sink_nonempty back_clicked).1
      if chart.should_return_home then
        { m with current_page := Page.Selection, xrp_chart := none }
      else
        { m with xrp_chart := some chart }
    | none => m

/-- A sine sampling that always returns 0; used to instantiate the
uninterpreted `qsin` parameter on concrete runs. -/
def zeroSine : ℚ → ℚ := fun _ => 0

/-- The identity as a sine sampling; a stand-in for a nonzero sampled
sine value on concrete runs. -/
def idSine : ℚ → ℚ := fun t => t

/-- The spec's example series: prices 100, 102, 99 on three consecutive
days. -/
def examplePrices : List DailyPrice := [⟨0, 100⟩, ⟨1, 102⟩, ⟨2, 99⟩]

/-- A chart session freshly built over `examplePrices`. -/
def exampleChart : ChartApp := ChartApp.new_from_data ⟨examplePrices⟩

/-- The first frame on `exampleChart` at which the 2-second timer
fires (the sink is idle). -/
def exampleStep1 : ChartApp × Option Tone :=
  exampleChart.update zeroSine 2 false false

/-- The second timer-firing frame, continuing from `exampleStep1`. -/
def exampleStep2 : ChartApp × Option Tone :=
  (exampleStep1.1).update zeroSine 2 false false

/-- A session whose two daily prices are equal: the day-over-day delta
at the first tick is exactly zero. -/
def tieChart : ChartApp := ChartApp.new_from_data ⟨[⟨0, 100⟩, ⟨1, 100⟩]⟩

/-- A two-day session with a rising price. -/
def pairChart : ChartApp := ChartApp.new_from_data ⟨[⟨0, 100⟩, ⟨1, 101⟩]⟩

/-- A chart state captured mid-flight: the float animation has been
running (`float_time = 3`, `float_offset = 5`) and the timer is about
to reach the 2-second mark on the next frame. -/
def midFlight : ChartApp :=
  { daily_prices := [⟨0, 100⟩, ⟨1, 102⟩],
    current_index := 0,
    sound_output := true,
    animation_timer := 0,
    current_texture_index := 0,
    image_animation :=
      { scale := 0.9, target_scale := 1, opacity := 0.5, target_opacity := 1,
        float_offset := 5, float_time := 3 },
    point_progress := 0.5,
    should_return_home := false,
    image_sequencer := ImageSequencer.new }

/-- The router state while a fetch is in flight: selection page shown,
loading overlay up, a channel receiver installed. -/
def loadingMain : MainApp :=
  { MainApp.new with
    loading_state := LoadingState.Loading "Ethereum",
    has_receiver := true }

/-!
Helper lemmas about the daily reduction and the image sequencer.
-/

/-- Invariant of the reduction loop once `last_date = some d0`: if the
remaining samples' days are non-decreasing and all at least `d0`, the
emitted dates are strictly increasing and all exceed `d0`. -/
lemma reduceDailyAux_some_sorted (prices : List (Int × ℚ)) :
    ∀ d0 : Int,
      (prices.map (fun p => dayKey p.1)).Pairwise (· ≤ ·) →
      (∀ p ∈ prices, d0 ≤ dayKey p.1) →
      ((reduceDailyAux (some d0) prices).map DailyPrice.date).Pairwise (· < ·)
        ∧ ∀ dp ∈ reduceDailyAux (some d0) prices, d0 < dp.date := by
  induction prices with
  | nil =>
    intro d0 _ _
    simp [reduceDailyAux]
  | cons hd rest ih =>
    intro d0 hsort hbound
    obtain ⟨t, p⟩ := hd
    simp only [List.map_cons, List.pairwise_cons] at hsort
    obtain ⟨hhead, hsort'⟩ := hsort
    have hd0 : d0 ≤ dayKey t := hbound (t, p) (List.mem_cons_self _ _)
    have hrest : ∀ q ∈ rest, dayKey t ≤ dayKey q.1 :=
      fun q hq => hhead _ (List.mem_map_of_mem _ hq)
    by_cases heq : d0 = dayKey t
    · have hstep : reduceDailyAux (some d0) ((t, p) :: rest)
          = reduceDailyAux (some d0) rest := by
        simp [reduceDailyAux, heq]
      rw [hstep]
      exact ih d0 hsort' (fun q hq => heq.le.trans (hrest q hq))
    · have hlt : d0 < dayKey t := lt_of_le_of_ne hd0 heq
      have hstep : reduceDailyAux (some d0) ((t, p) :: rest)
          = { date := dayKey t, price := p }
              :: reduceDailyAux (some (dayKey t)) rest := by
        simp [reduceDailyAux, heq]
      rw [hstep]
      have hih := ih (dayKey t) hsort' hrest
      refine ⟨?_, ?_⟩
      · simp only [List.map_cons, List.pairwise_cons]
        refine ⟨fun d hd => ?_, hih.1⟩
        obtain ⟨dp, hdp, rfl⟩ := List.mem_map.mp hd
        exact hih.2 dp hdp
      · intro dp hdp
        rcases List.mem_cons.mp hdp with h | h
        · rw [h]; exact hlt
        · exact lt_trans hlt (hih.2 dp h)

/-- On an input whose days are non-decreasing, the reduction's dates
are strictly increasing. -/
lemma reduceDaily_sorted (prices : List (Int × ℚ))
    (hsort : (prices.map (fun p => dayKey p.1)).Pairwise (· ≤ ·)) :
    ((reduceDaily prices).map DailyPrice.date).Pairwise (· < ·) := by
  cases prices with
  | nil => simp [reduceDaily, reduceDailyAux]
  | cons hd rest =>
    obtain ⟨t, p⟩ := hd
    simp only [List.map_cons, List.pairwise_cons] at hsort
    obtain ⟨hhead, hsort'⟩ := hsort
    have hrest : ∀ q ∈ rest, dayKey t ≤ dayKey q.1 :=
      fun q hq => hhead _ (List.mem_map_of_mem _ hq)
    have hstep : reduceDaily ((t, p) :: rest)
        = { date := dayKey t, price := p }
            :: reduceDailyAux (some (dayKey t)) rest := by
      simp [reduceDaily, reduceDailyAux]
    rw [hstep]
    have hih := reduceDailyAux_some_sorted rest (dayKey t) hsort' hrest
    simp only [List.map_cons, List.pairwise_cons]
    refine ⟨fun d hd => ?_, hih.1⟩
    obtain ⟨dp, hdp, rfl⟩ := List.mem_map.mp hd
    exact hih.2 dp hdp

/-- The loop with `last_date = some d0` coincides with the
specification-level "first sample per day" dedup whenever the days
still to come are non-decreasing, at least `d0`, and the days already
`seen` intersect the future days exactly in `d0`. -/
lemma reduceDailyAux_eq_firstPerDayAux (prices : List (Int × ℚ)) :
    ∀ (d0 : Int) (seen : List Int),
      (prices.map (fun p => dayKey p.1)).Pairwise (· ≤ ·) →
      (∀ p ∈ prices, d0 ≤ dayKey p.1) →
      (∀ p ∈ prices, (dayKey p.1 ∈ seen ↔ dayKey p.1 = d0)) →
      reduceDailyAux (some d0) prices = firstPerDayAux seen prices := by
  induction prices with
  | nil => intro d0 seen _ _ _; rfl
  | cons hd rest ih =>
    intro d0 seen hsort hbound hseen
    obtain ⟨t, p⟩ := hd
    simp only [List.map_cons, List.pairwise_cons] at hsort
    obtain ⟨hhead, hsort'⟩ := hsort
    have hrest : ∀ q ∈ rest, dayKey t ≤ dayKey q.1 :=
      fun q hq => hhead _ (List.mem_map_of_mem _ hq)
    have hd0 : d0 ≤ dayKey t := hbound (t, p) (List.mem_cons_self _ _)
    have hseent : dayKey t ∈ seen ↔ dayKey t = d0 :=
      hseen (t, p) (List.mem_cons_self _ _)
    by_cases heq : d0 = dayKey t
    · have h1 : reduceDailyAux (some d0) ((t, p) :: rest)
          = reduceDailyAux (some d0) rest := by
        simp [reduceDailyAux, heq]
      have hmem : dayKey t ∈ seen := hseent.mpr heq.symm
      have h2 : firstPerDayAux seen ((t, p) :: rest)
          = firstPerDayAux seen rest := by
        simp [firstPerDayAux, hmem]
      rw [h1, h2]
      exact ih d0 seen hsort' (fun q hq => heq.le.trans (hrest q hq))
        (fun q hq => hseen q (List.mem_cons_of_mem _ hq))
    · have hlt : d0 < dayKey t := lt_of_le_of_ne hd0 heq
      have hnmem : dayKey t ∉ seen := fun hmem => heq ((hseent.mp hmem).symm)
      have h1 : reduceDailyAux (some d0) ((t, p) :: rest)
          = { date := dayKey t, price := p }
              :: reduceDailyAux (some (dayKey t)) rest := by
        simp [reduceDailyAux, heq]
      have h2 : firstPerDayAux seen ((t, p) :: rest)
          = { date := dayKey t, price := p }
              :: firstPerDayAux (dayKey t :: seen) rest := by
        simp [firstPerDayAux, hnmem]
      rw [h1, h2]
      congr 1
      refine ih (dayKey t) (dayKey t :: seen) hsort' hrest (fun q hq => ?_)
      constructor
      · intro hmem
        rcases List.mem_cons.mp hmem with h | h
        · exact h
        · have hq0 : dayKey q.1 = d0 :=
            (hseen q (List.mem_cons_of_mem _ hq)).mp h
          have hgt : d0 < dayKey q.1 := hlt.trans_le (hrest q hq)
          exact absurd hq0.symm (ne_of_lt hgt)
      · intro h
        rw [h]
        exact List.mem_cons_self _ _

/-- On an input whose days are non-decreasing, the code's consecutive
dedup equals the specification's first-sample-per-day dedup. -/
lemma reduceDaily_eq_firstPerDay (prices : List (Int × ℚ))
    (hsort : (prices.map (fun p => dayKey p.1)).Pairwise (· ≤ ·)) :
    reduceDaily prices = firstPerDay prices := by
  cases prices with
  | nil => rfl
  | cons hd rest =>
    obtain ⟨t, p⟩ := hd
    simp only [List.map_cons, List.pairwise_cons] at hsort
    obtain ⟨hhead, hsort'⟩ := hsort
    have hrest : ∀ q ∈ rest, dayKey t ≤ dayKey q.1 :=
      fun q hq => hhead _ (List.mem_map_of_mem _ hq)
    have h1 : reduceDaily ((t, p) :: rest)
        = { date := dayKey t, price := p }
            :: reduceDailyAux (some (dayKey t)) rest := by
      simp [reduceDaily, reduceDailyAux]
    have h2 : firstPerDay ((t, p) :: rest)
        = { date := dayKey t, price := p }
            :: firstPerDayAux [dayKey t] rest := by
      simp [firstPerDay, firstPerDayAux]
    rw [h1, h2]
    congr 1
    exact reduceDailyAux_eq_firstPerDayAux rest (dayKey t) [dayKey t] hsort'
      hrest (fun q hq => by simp)

/-- The reduction is empty exactly when the raw input is empty (the
first sample is always pushed, `last_date` starting at `None`). -/
lemma reduceDaily_eq_nil_iff (prices : List (Int × ℚ)) :
    reduceDaily prices = [] ↔ prices = [] := by
  cases prices with
  | nil => simp [reduceDaily, reduceDailyAux]
  | cons hd rest =>
    obtain ⟨t, p⟩ := hd
    simp [reduceDaily, reduceDailyAux]

/-- After `n` bull calls from a fresh sequencer the bull counter is
`n % 7`. -/
lemma bullCalls_bull_index (n : Nat) : (bullCalls n).bull_index = n % 7 := by
  induction n with
  | zero => rfl
  | succ k ih => simp [bullCalls, get_next_bull_index, ih]

/-- After `n` bear calls from a fresh sequencer the bear counter is
`n % 4`. -/
lemma bearCalls_bear_index (n : Nat) : (bearCalls n).bear_index = n % 4 := by
  induction n with
  | zero => rfl
  | succ k ih => simp [bearCalls, get_next_bear_index, ih]

/-!
Claim theorems.
-/

/-- C1 (amended): when the raw samples' calendar days are non-decreasing
(as they are when timestamps arrive in ascending order), the daily
reduction of `fetch_data` yields strictly increasing dates — hence at
most one entry per calendar day, in ascending day order — and coincides
with the specification-level dedup that keeps the first sample seen for
each day and drops (not averages) later same-day samples. For general
unsorted input the loop only collapses consecutive same-day runs, see
the counterexample. -/
theorem C1_daily_reduction (prices : List (Int × ℚ))
    (hsort : (prices.map (fun p => dayKey p.1)).Pairwise (· ≤ ·)) :
    ((reduceDaily prices).map DailyPrice.date).Pairwise (· < ·)
      ∧ reduceDaily prices = firstPerDay prices :=
  ⟨reduceDaily_sorted prices hsort, reduceDaily_eq_firstPerDay prices hsort⟩

/-- Witness for C1: a concrete three-sample input with two samples on
day 0 followed by one on day 1, days non-decreasing. -/
theorem C1_daily_reduction_witness :
    (([((0 : Int), (100 : ℚ)), (500, 101), (86400000, 99)].map
        (fun p => dayKey p.1)).Pairwise (· ≤ ·))
      ∧ (((reduceDaily [((0 : Int), (100 : ℚ)), (500, 101),
            (86400000, 99)]).map DailyPrice.date).Pairwise (· < ·)
          ∧ reduceDaily [((0 : Int), (100 : ℚ)), (500, 101), (86400000, 99)]
              = firstPerDay
                  [((0 : Int), (100 : ℚ)), (500, 101), (86400000, 99)]) :=
  ⟨by decide, C1_daily_reduction _ (by decide)⟩

/-- Counterexample to C1 as stated: day 0 reappears after day 1 in the
raw input (timestamps 0 ms, 86400000 ms, 0 ms), and the reduction emits
day 0 twice — neither at most one entry per day nor ascending order,
and the second day-0 entry carries the later price 102, not the day's
first sample 100. -/
theorem C1_counterexample :
    (reduceDaily [((0 : Int), (100 : ℚ)), (86400000, 101), (0, 102)]).map
        DailyPrice.date = [0, 1, 0]
      ∧ ¬ ((reduceDaily [((0 : Int), (100 : ℚ)), (86400000, 101),
            (0, 102)]).map DailyPrice.date).Pairwise (· < ·)
      ∧ ¬ ((reduceDaily [((0 : Int), (100 : ℚ)), (86400000, 101),
            (0, 102)]).map DailyPrice.date).Nodup :=
  ⟨by decide, by decide, by decide⟩

/-- C2 (amended): at a sequencer advance the pool is chosen by the
comparison `current_price < next_price`: a strictly positive
day-over-day change selects (and advances) the bullish counter, while a
zero or negative change selects (and advances) the bearish counter;
the unused counter is untouched. -/
theorem C2_pool_by_delta_sign (s : ChartApp) :
    ((s.daily_prices.getD s.current_index default).price
        < (s.daily_prices.getD (s.current_index + 1) default).price →
      s.advance.1.current_texture_index = s.image_sequencer.bull_index
        ∧ s.advance.1.image_sequencer.bull_index
            = (s.image_sequencer.bull_index + 1) % 7
        ∧ s.advance.1.image_sequencer.bear_index
            = s.image_sequencer.bear_index)
      ∧ (¬ (s.daily_prices.getD s.current_index default).price
          < (s.daily_prices.getD (s.current_index + 1) default).price →
        s.advance.1.current_texture_index = s.image_sequencer.bear_index
          ∧ s.advance.1.image_sequencer.bear_index
              = (s.image_sequencer.bear_index + 1) % 4
          ∧ s.advance.1.image_sequencer.bull_index
              = s.image_sequencer.bull_index) := by
  constructor <;> intro h <;>
    simp only [List.getD_eq_getElem?_getD] at h <;>
    simp [ChartApp.advance, get_next_bull_index, get_next_bear_index, h]

/-- Witness for C2: on `pairChart` (prices 100 then 101) the delta is
strictly positive and the bullish pool is used. -/
theorem C2_pool_by_delta_sign_witness :
    (pairChart.daily_prices.getD pairChart.current_index default).price
        < (pairChart.daily_prices.getD
            (pairChart.current_index + 1) default).price
      ∧ (pairChart.advance.1.current_texture_index
            = pairChart.image_sequencer.bull_index
          ∧ pairChart.advance.1.image_sequencer.bull_index
              = (pairChart.image_sequencer.bull_index + 1) % 7
          ∧ pairChart.advance.1.image_sequencer.bear_index
              = pairChart.image_sequencer.bear_index) :=
  ⟨by norm_num [pairChart, ChartApp.new_from_data, List.getD],
   (C2_pool_by_delta_sign pairChart).1
     (by norm_num [pairChart, ChartApp.new_from_data, List.getD])⟩

/-- Counterexample to C2 as stated: on `tieChart` both prices are 100,
a zero day-over-day change, yet the advance draws from the bearish
counter (bear counter advances to 1, bull counter stays 0) — the claim
says a zero change selects the next bullish pool index. -/
theorem C2_counterexample :
    tieChart.daily_prices = [⟨0, 100⟩, ⟨1, 100⟩]
      ∧ tieChart.advance.1.current_texture_index
          = tieChart.image_sequencer.bear_index
      ∧ tieChart.advance.1.image_sequencer.bear_index = 1
      ∧ tieChart.advance.1.image_sequencer.bull_index = 0 := by
  refine ⟨rfl, ?_, ?_, ?_⟩ <;>
    norm_num [tieChart, ChartApp.advance, ChartApp.new_from_data,
      ImageSequencer.new, get_next_bull_index, get_next_bear_index,
      List.getD, pct_change, AnimatedImage.new]

/-- C3 (amended): `fetch_data` fails exactly when the network/parse
step fails, propagating the error; on success it returns `Ok` with the
daily reduction of the response's samples, and that series is empty
precisely when the response's sample list is empty — so an empty
successful response yields `Ok` with an empty series, and no
non-emptiness or ordering check is enforced by `fetch_data` itself. -/
theorem C3_fetch_result :
    (∀ e : FetchError, fetch_data (.error e) = .error e)
      ∧ (∀ mc : MarketChart,
          fetch_data (.ok mc) = .ok { daily_prices := reduceDaily mc.prices }
            ∧ (reduceDaily mc.prices = [] ↔ mc.prices = [])) :=
  ⟨fun _ => rfl, fun mc => ⟨rfl, reduceDaily_eq_nil_iff mc.prices⟩⟩

/-- Counterexample to C3 as stated: a successful response carrying an
empty sample list makes `fetch_data` return `Ok` with an empty series,
contradicting "never returns Ok with an empty series". -/
theorem C3_counterexample :
    fetch_data (.ok { prices := [] }) = .ok { daily_prices := [] }
      ∧ ({ daily_prices := [] } : ChartData).daily_prices = [] :=
  ⟨rfl, rfl⟩

/-- C4: over one frame of `ChartApp::update` on a non-empty series with
an in-range cursor, the cursor either stays or moves up by exactly one,
remains strictly below the series length, the series itself is
unchanged, a cursor already at `length - 1` never advances, and even
then the back button still raises `should_return_home` (the UI stays
interactive). -/
theorem C4_cursor_invariant (qsin : ℚ → ℚ) (s : ChartApp) (dt : ℚ)
    (snk bk : Bool) (hne : s.daily_prices ≠ [])
    (hlt : s.current_index < s.daily_prices.length) :
    ((s.update qsin dt snk bk).1.current_index = s.current_index
        ∨ (s.update qsin dt snk bk).1.current_index = s.current_index + 1)
      ∧ (s.update qsin dt snk bk).1.current_index < s.daily_prices.length
      ∧ (s.update qsin dt snk bk).1.daily_prices = s.daily_prices
      ∧ (s.current_index = s.daily_prices.length - 1 →
          (s.update qsin dt snk bk).1.current_index = s.current_index)
      ∧ (s.update qsin dt snk true).1.should_return_home = true := by
  have hlen : 0 < s.daily_prices.length := List.length_pos.mpr hne
  simp only [ChartApp.update, ChartApp.advance]
  split_ifs <;> simp_all <;> omega

/-- Witness for C4 on the concrete two-day session `pairChart`. -/
theorem C4_cursor_invariant_witness :
    pairChart.daily_prices ≠ []
      ∧ pairChart.current_index < pairChart.daily_prices.length
      ∧ (((pairChart.update zeroSine 1 false false).1.current_index
              = pairChart.current_index
            ∨ (pairChart.update zeroSine 1 false false).1.current_index
              = pairChart.current_index + 1)
          ∧ (pairChart.update zeroSine 1 false false).1.current_index
              < pairChart.daily_prices.length
          ∧ (pairChart.update zeroSine 1 false false).1.daily_prices
              = pairChart.daily_prices
          ∧ (pairChart.current_index = pairChart.daily_prices.length - 1 →
              (pairChart.update zeroSine 1 false false).1.current_index
                = pairChart.current_index)
          ∧ (pairChart.update zeroSine 1 false true).1.should_return_home
              = true) :=
  ⟨by decide, by decide,
   C4_cursor_invariant zeroSine pairChart 1 false false (by decide) (by decide)⟩

/-- C5: on the spec's example series [100, 102, 99] the two ticks
compute percent changes `(next-current)/current*100` of exactly +2 and
-50/17 ≈ -2.94 (within 0.01), enqueue the corresponding tones, and
route the first advance to bullish pool index 0 and the second to
bearish pool index 0. -/
theorem C5_example_run :
    pct_change 100 102 = 2
      ∧ pct_change 102 99 = -50 / 17
      ∧ |pct_change 102 99 - (-294 / 100)| < 1 / 100
      ∧ exampleStep1.2 = some (generate_sound (pct_change 100 102))
      ∧ exampleStep1.1.current_texture_index = 0
      ∧ exampleStep1.1.image_sequencer.bull_index = 1
      ∧ exampleStep1.1.image_sequencer.bear_index = 0
      ∧ exampleStep2.2 = some (generate_sound (pct_change 102 99))
      ∧ exampleStep2.1.current_texture_index = 0
      ∧ exampleStep2.1.image_sequencer.bear_index = 1
      ∧ exampleStep2.1.image_sequencer.bull_index = 1 := by
  norm_num [exampleStep1, exampleStep2, exampleChart, examplePrices, zeroSine,
    ChartApp.update, ChartApp.advance, ChartApp.new_from_data,
    AnimatedImage.animate, AnimatedImage.new, ImageSequencer.new,
    get_next_bull_index, get_next_bear_index, List.getD, pct_change,
    generate_sound, abs]

/-- C6 (amended): the sequencer advance resets the animation scale to
0.8, the opacity to 0, and the point progress to 0, but leaves the
float offset and float time untouched (the sinusoid is not restarted);
besides these it changes only the cursor, the texture index, the image
sequencer counters, and the timer — series, audio handle, back flag
and animation targets are unchanged. -/
theorem C6_tick_reset (s : ChartApp) :
    s.advance.1.image_animation.scale = 0.8
      ∧ s.advance.1.image_animation.opacity = 0
      ∧ s.advance.1.point_progress = 0
      ∧ s.advance.1.image_animation.float_offset
          = s.image_animation.float_offset
      ∧ s.advance.1.image_animation.float_time = s.image_animation.float_time
      ∧ s.advance.1.image_animation.target_scale
          = s.image_animation.target_scale
      ∧ s.advance.1.image_animation.target_opacity
          = s.image_animation.target_opacity
      ∧ s.advance.1.daily_prices = s.daily_prices
      ∧ s.advance.1.sound_output = s.sound_output
      ∧ s.advance.1.should_return_home = s.should_return_home
      ∧ s.advance.1.current_index = s.current_index + 1
      ∧ s.advance.1.animation_timer = 0 := by
  simp [ChartApp.advance]

/-- Counterexample to C6 as stated: a frame of `update` on `midFlight`
in which the tick fires (the cursor advances to 1): the float time
continues from 3 to 7 and the float offset becomes 70 — neither is
restored to its initial value 0 — and the image-sequencer bull counter,
a field outside the claim's list of changed fields, moves from 0
to 1. -/
theorem C6_counterexample :
    (midFlight.update idSine 2 false false).1.current_index = 1
      ∧ (midFlight.update idSine 2 false false).1.image_animation.float_time
          = 7
      ∧ (midFlight.update idSine 2 false false).1.image_animation.float_offset
          = 70
      ∧ AnimatedImage.new.float_time = 0
      ∧ AnimatedImage.new.float_offset = 0
      ∧ (70 : ℚ) ≠ 0
      ∧ (midFlight.update idSine 2 false false).1.image_sequencer.bull_index
          = 1
      ∧ midFlight.image_sequencer.bull_index = 0 := by
  refine ⟨?_, ?_, ?_, rfl, rfl, by norm_num, ?_, rfl⟩ <;>
    norm_num [midFlight, idSine, ChartApp.update, ChartApp.advance,
      AnimatedImage.animate, ImageSequencer.new, get_next_bull_index,
      get_next_bear_index, List.getD, pct_change]

/-- C7: while the sink still has a playing tone the frame never
advances the cursor; and whenever a frame does advance the cursor, at
least 2 seconds of wall-clock time had accumulated on the timer since
the last tick, the sink was idle (given the audio handle exists), and
the timer is zeroed again — so the effective playback interval is the
maximum of the fixed 2-second interval and the actual tone duration. -/
theorem C7_audio_gate (qsin : ℚ → ℚ) (s : ChartApp) (dt : ℚ)
    (snk bk : Bool) :
    (s.sound_output = true → snk = true →
        (s.update qsin dt snk bk).1.current_index = s.current_index)
      ∧ ((s.update qsin dt snk bk).1.current_index ≠ s.current_index →
          2 ≤ s.animation_timer + dt
            ∧ (s.sound_output = true → snk = false)
            ∧ (s.update qsin dt snk bk).1.animation_timer = 0) := by
  simp only [ChartApp.update, ChartApp.advance]
  split_ifs <;> simp_all

/-- Witness for C7: a frame on `pairChart` with the sink still playing
leaves the cursor at 0. -/
theorem C7_audio_gate_witness :
    pairChart.sound_output = true
      ∧ (pairChart.update zeroSine 1 true false).1.current_index
          = pairChart.current_index :=
  ⟨rfl, (C7_audio_gate zeroSine pairChart 1 true false).1 rfl rfl⟩

/-- C8: the bull counter returns 0,1,...,6,0,... (the n-th call yields
`n % 7`) and the bear counter returns 0,1,2,3,0,... (`n % 4`); each
call returns the pre-call counter and advances only its own counter,
leaving the other unchanged — so each pool is fully covered before any
repeat. -/
theorem C8_sequencer (s : ImageSequencer) (n : Nat) :
    (get_next_bull_index s).1 = s.bull_index
      ∧ (get_next_bull_index s).2.bull_index = (s.bull_index + 1) % 7
      ∧ (get_next_bull_index s).2.bear_index = s.bear_index
      ∧ (get_next_bear_index s).1 = s.bear_index
      ∧ (get_next_bear_index s).2.bear_index = (s.bear_index + 1) % 4
      ∧ (get_next_bear_index s).2.bull_index = s.bull_index
      ∧ (get_next_bull_index (bullCalls n)).1 = n % 7
      ∧ (get_next_bear_index (bearCalls n)).1 = n % 4 := by
  refine ⟨rfl, rfl, rfl, rfl, rfl, rfl, ?_, ?_⟩
  · simp [get_next_bull_index, bullCalls_bull_index]
  · simp [get_next_bear_index, bearCalls_bear_index]

/-- C9: a failed fetch sends nothing on the channel; a frame of
`MainApp::update` on the selection page with nothing received is the
identity (so the page stays `Selection` and the `Loading` overlay state
persists), iterating such frames forever changes nothing (no timeout or
recovery), and the page can leave `Selection` only on a frame whose
channel poll yields a message. -/
theorem C9_fetch_failure (qsin : ℚ → ℚ) (m : MainApp) (coin : String)
    (e : FetchError) (audio_ok : Bool) (dt : ℚ) (snk bk : Bool)
    (hsel : m.current_page = Page.Selection) :
    fetch_worker coin (.error e) = none
      ∧ MainApp.update qsin m none audio_ok dt snk bk = m
      ∧ (∀ n : Nat,
          (fun st => MainApp.update qsin st none audio_ok dt snk bk)^[n] m
            = m)
      ∧ (∀ msg, (MainApp.update qsin m msg audio_ok dt snk bk).current_page
            ≠ Page.Selection → msg ≠ none) := by
  have hrec : MainApp.receive m none audio_ok = m := by
    unfold MainApp.receive
    split <;> rfl
  have hupd : MainApp.update qsin m none audio_ok dt snk bk = m := by
    unfold MainApp.update
    rw [hrec]
    simp only [hsel]
  refine ⟨rfl, hupd, ?_, ?_⟩
  · intro n
    induction n with
    | zero => rfl
    | succ k ihk => rw [Function.iterate_succ_apply', ihk, hupd]
  · intro msg hne
    cases msg with
    | none => rw [hupd, hsel] at hne; exact absurd rfl hne
    | some x => exact fun hcon => Option.noConfusion hcon

/-- Witness for C9 on the concrete in-flight router state
`loadingMain` and a failed Ethereum fetch. -/
theorem C9_fetch_failure_witness :
    loadingMain.current_page = Page.Selection
      ∧ fetch_worker "ethereum" (.error FetchError.network) = none
      ∧ MainApp.update zeroSine loadingMain none true 1 false false
          = loadingMain :=
  ⟨rfl,
   (C9_fetch_failure zeroSine loadingMain "ethereum" FetchError.network
      true 1 false false rfl).1,
   (C9_fetch_failure zeroSine loadingMain "ethereum" FetchError.network
      true 1 false false rfl).2.1⟩

/-- C10: `generate_sound` produces a 2000 ms tone at amplitude 0.20
with frequency `440 / (1 + |c| / 2)` for a strictly positive percent
change and `440 * (1 + |c| / 2)` otherwise; hence upward moves sound
strictly below the 440 Hz base pitch and downward or flat moves at or
above it. -/
theorem C10_generate_sound_spec (c : ℚ) :
    generate_sound c
        = { freq := if c > 0 then 440 / (1 + |c| / 2) else 440 * (1 + |c| / 2),
            duration_ms := 2000, amplitude := 0.20 }
      ∧ (0 < c → (generate_sound c).freq < 440)
      ∧ (c ≤ 0 → 440 ≤ (generate_sound c).freq) := by
  refine ⟨rfl, fun hc => ?_, fun hc => ?_⟩
  · have habs : |c| = c := abs_of_pos hc
    have h1 : (1 : ℚ) < 1 + |c| / 2 := by rw [habs]; linarith
    simp only [generate_sound, if_pos hc]
    exact div_lt_self (by norm_num) h1
  · have h1 : (1 : ℚ) ≤ 1 + |c| / 2 := by
      have := abs_nonneg c
      linarith
    simp only [generate_sound]
    rw [if_neg (not_lt.mpr hc)]
    exact le_mul_of_one_le_right (by norm_num) h1

/-- Witness for C10 at the concrete percent change +2: the tone's
frequency is below 440 Hz. -/
theorem C10_generate_sound_witness :
    (0 : ℚ) < 2 ∧ (generate_sound 2).freq < 440 :=
  ⟨by norm_num, (C10_generate_sound_spec 2).2.1 (by norm_num)⟩

end Sonifier
